import Mathlib

/-!
Verification of the `player` package: a fixed-capacity, segment-addressable
in-memory stream buffer (`player.go`).

The Go code is shallowly embedded: the byte store `data []byte` is a
`List Nat`, Go `int64` values are `Int` (no arithmetic in the claims comes
near 2^63, so wrap-around is irrelevant), and the mutex is dropped — all
operations here are sequential, which matches every claim (none concerns
concurrency).  Go's `/` on nonnegative `int64` operands agrees with Lean's
Euclidean `/` on `Int`, and every division in the code divides a nonnegative
length by `segment`.

`errors.Wrap(err, msg)` in the source preserves the wrapped error as the
cause (the tests compare via `errors.Cause`); errors are therefore modelled
as the underlying `Error` constant itself.
-/

namespace Player

/-- `type Error string` from player.go. -/
abbrev Error := String

/-- `ErrMiss Error = "buffer miss"` -/
def ErrMiss : Error := "buffer miss"

/-- `ErrBufferTooSmall Error = "buffer is too small"` -/
def ErrBufferTooSmall : Error := "buffer is too small"

/-- `ErrTooLargeWrite Error = "write is too large"` -/
def ErrTooLargeWrite : Error := "write is too large"

/-- `ErrEmpty Error = "buffer is empty"` -/
def ErrEmpty : Error := "buffer is empty"

/-- `Buffer` struct from player.go (mutex `l` dropped: sequential model). -/
structure Buffer where
  segment  : Int
  maxCount : Int
  count    : Int
  lastID   : Int
  firstID  : Int
  overflow : Bool
  data     : List Nat
deriving DecidableEq

/-- `Config` struct from player.go. -/
structure Config where
  Segment : Int
  Count : Int
  Start : Int
  AllowOverflow : Bool

/-- `New(cfg Config) *Buffer`: zero-valued `Segment`/`Count` get defaults
1024 / 8; the remaining `Buffer` fields (`count`, `lastID`, `data`) keep
Go's zero values (`0`, `0`, nil). -/
def New (cfg : Config) : Buffer :=
  let seg := if cfg.Segment = 0 then 1024 else cfg.Segment
  let cnt := if cfg.Count = 0 then 8 else cfg.Count
  { segment := seg, maxCount := cnt, count := 0, lastID := 0,
    firstID := cfg.Start, overflow := cfg.AllowOverflow, data := [] }

/-- `NewDefault()` -/
def NewDefault : Buffer := New ⟨0, 0, 0, false⟩

/-- `SetCount(count int64)` -/
def SetCount (b : Buffer) (count : Int) : Buffer := { b with maxCount := count }

/-- `SegmentSize() int64` -/
def SegmentSize (b : Buffer) : Int := b.segment

/-- `Count() int64` (returns the current maximum segment count). -/
def Count (b : Buffer) : Int := b.maxCount

/-- `Size() int` -/
def Size (b : Buffer) : Int := (b.data.length : Int)

/-- Go's builtin `copy(dst, src)`: copies `min (len dst) (len src)` elements
into the front of `dst`; the resulting contents of `dst`. -/
def goCopy (dst src : List Nat) : List Nat :=
  let n := min dst.length src.length
  src.take n ++ dst.drop n

/-- `getSegment(id int64) []byte`: `b.data[start : b.segment+start]` with
`start := b.segment * (id - b.firstID)`.  The Go slice expression panics out
of bounds; the model truncates instead (all claims stay in bounds). -/
def getSegment (b : Buffer) (id : Int) : List Nat :=
  let start := b.segment * (id - b.firstID)
  (b.data.drop start.toNat).take b.segment.toNat

/-- The eviction loop inside `Write`:
`for len(data) > segment*maxCount { firstID++; data = data[segment:] }`,
fuel-indexed to make it total.  `Write` supplies `fuel = len(data)`, which
is enough for the loop to reach its exit condition whenever
`segment ≥ 1` and `maxCount ≥ 0` (proved below), i.e. in every situation
the claims quantify over. -/
def evictLoop (seg mx : Int) : Nat → Int → List Nat → Int × List Nat
  | 0, f, d => (f, d)
  | fuel + 1, f, d =>
    if (d.length : Int) > seg * mx then
      evictLoop seg mx fuel (f + 1) (d.drop seg.toNat)
    else (f, d)

/-- `Write(buf []byte) (int, error)`: reject when the payload exceeds
`segment*maxCount` and overflow is disallowed; otherwise append, recompute
`count` and `lastID`, then run the eviction loop.  Returns
`(resulting buffer, returned int, returned error)`. -/
def Write (b : Buffer) (buf : List Nat) : Buffer × Int × Option Error :=
  if (buf.length : Int) > b.segment * b.maxCount ∧ b.overflow = false then
    (b, 0, some ErrTooLargeWrite)
  else
    let data1 := b.data ++ buf
    let count1 := (data1.length : Int) / b.segment
    let p := evictLoop b.segment b.maxCount data1.length b.firstID data1
    let b' := { b with data := p.2, count := count1, lastID := count1 + b.firstID - 1, firstID := p.1 }
    (b', (buf.length : Int), none)

/-- `acquireID(id int64) error` -/
def acquireID (b : Buffer) (id : Int) : Option Error :=
  if b.data.length = 0 then some ErrEmpty
  else if id < b.firstID ∨ id > b.lastID then some ErrMiss
  else none

/-- `ReadID(w io.Writer, id int64) (int, error)`.  The sink `w` is a
function from the bytes handed to `w.Write` to the `(n, err)` it reports.
Mirrors the source faithfully, including `var buf []byte` (nil) followed by
`copy(buf, b.getSegment(id))`, which copies zero bytes. -/
def ReadID (w : List Nat → Int × Option Error) (b : Buffer) (id : Int) :
    Int × Option Error :=
  match acquireID b id with
  | some e => (0, some e)
  | none =>
    let buf : List Nat := []
    let buf1 := goCopy buf (getSegment b id)
    w buf1

/-- `Get(buf []byte, id int64) error`: length guard, ID resolution, then
`copy(buf[:b.segment], b.getSegment(id))`.  Returns the resulting contents
of the caller's buffer together with the returned error. -/
def Get (b : Buffer) (buf : List Nat) (id : Int) : List Nat × Option Error :=
  if (buf.length : Int) < b.segment then (buf, some ErrBufferTooSmall)
  else
    match acquireID b id with
    | some e => (buf, some e)
    | none =>
      (goCopy (buf.take b.segment.toNat) (getSegment b id)
        ++ buf.drop b.segment.toNat, none)

/-- `LastID() int64` -/
def LastID (b : Buffer) : Int := b.lastID

/-- `FirstID() int64` -/
def FirstID (b : Buffer) : Int := b.firstID

/-- Sequential composition of `Write` calls; `none` when some call in the
list returns an error. -/
def writeAll (b : Buffer) : List (List Nat) → Option Buffer
  | [] => some b
  | p :: ps =>
    match Write b p with
    | (b', _, none) => writeAll b' ps
    | (_, _, some _) => none

end Player

namespace Player

/-- The loop guard `len(data) > segment*maxCount`, restated over `Nat`. -/
theorem evict_cond_iff (seg mx : Int) (hseg : 1 ≤ seg) (hmx : 0 ≤ mx)
    (d : List Nat) :
    ((d.length : Int) > seg * mx) ↔ seg.toNat * mx.toNat < d.length := by
  have h1 : (seg.toNat : Int) = seg := Int.toNat_of_nonneg (by linarith)
  have h2 : (mx.toNat : Int) = mx := Int.toNat_of_nonneg hmx
  rw [← h1, ← h2]
  constructor
  · intro h; exact_mod_cast h
  · intro h; exact_mod_cast h

/-- When the guard already fails, the eviction loop is the identity. -/
theorem evictLoop_of_le (seg mx : Int) (fuel : Nat) (f : Int) (d : List Nat)
    (h : ¬ ((d.length : Int) > seg * mx)) :
    evictLoop seg mx fuel f d = (f, d) := by
  cases fuel with
  | zero => rfl
  | succ n => simp only [evictLoop]; rw [if_neg h]

/-- With `fuel ≥ len(data)`, the loop reaches its exit condition: afterwards
the store holds at most `segment*maxCount` bytes. -/
theorem evictLoop_length_le (seg mx : Int) (hseg : 1 ≤ seg) (hmx : 0 ≤ mx) :
    ∀ (fuel : Nat) (f : Int) (d : List Nat), d.length ≤ fuel →
      ((evictLoop seg mx fuel f d).2.length : Int) ≤ seg * mx := by
  intro fuel
  induction fuel with
  | zero =>
    intro f d h
    have hd : d.length = 0 := Nat.le_zero.mp h
    simp only [evictLoop, hd]
    exact_mod_cast mul_nonneg (by linarith) hmx
  | succ m ih =>
    intro f d h
    simp only [evictLoop]
    by_cases hc : (d.length : Int) > seg * mx
    · rw [if_pos hc]
      apply ih
      have hdrop : (d.drop seg.toNat).length = d.length - seg.toNat :=
        List.length_drop _ _
      have h0 : (0:Int) ≤ seg * mx := mul_nonneg (by linarith) hmx
      omega
    · rw [if_neg hc]
      simpa using not_lt.mp hc

/-- The eviction loop never drains a nonempty store when `maxCount ≥ 1`. -/
theorem evictLoop_pos (seg mx : Int) (hseg : 1 ≤ seg) (hmx : 1 ≤ mx) :
    ∀ (fuel : Nat) (f : Int) (d : List Nat), 1 ≤ d.length →
      1 ≤ (evictLoop seg mx fuel f d).2.length := by
  intro fuel
  induction fuel with
  | zero => intro f d h; simpa only [evictLoop] using h
  | succ m ih =>
    intro f d h
    simp only [evictLoop]
    by_cases hc : (d.length : Int) > seg * mx
    · rw [if_pos hc]
      apply ih
      have hdrop : (d.drop seg.toNat).length = d.length - seg.toNat :=
        List.length_drop _ _
      have hms : seg ≤ seg * mx := le_mul_of_one_le_right (by linarith) hmx
      omega
    · rw [if_neg hc]; exact h

/-- On a store of exactly `n` whole segments the loop evicts
`n - maxCount` segments (none when `n ≤ maxCount`): the final `firstID`
grows by that many and the store loses that many segment-size chunks from
the front. -/
theorem evictLoop_aligned (seg mx : Int) (hseg : 1 ≤ seg) (hmx : 1 ≤ mx) :
    ∀ (fuel : Nat) (f : Int) (n : Nat) (d : List Nat),
      d.length = n * seg.toNat → d.length ≤ fuel →
      evictLoop seg mx fuel f d
        = (f + ((n - mx.toNat : Nat) : Int),
           d.drop ((n - mx.toNat) * seg.toNat)) := by
  intro fuel
  induction fuel with
  | zero =>
    intro f n d hlen hfuel
    have hs : 1 ≤ seg.toNat := by omega
    have hd : d.length = 0 := Nat.le_zero.mp hfuel
    have hn : n = 0 := by
      rcases Nat.mul_eq_zero.mp (hlen ▸ hd) with h | h
      · exact h
      · omega
    simp [evictLoop, hn]
  | succ m ih =>
    intro f n d hlen hfuel
    have hs : 1 ≤ seg.toNat := by omega
    have hmn : 1 ≤ mx.toNat := by omega
    simp only [evictLoop]
    by_cases hc : (d.length : Int) > seg * mx
    · rw [if_pos hc]
      have hcn : seg.toNat * mx.toNat < d.length :=
        (evict_cond_iff seg mx hseg (by linarith) d).mp hc
      have hngt : mx.toNat < n := by
        by_contra hle
        push_neg at hle
        have hmul : n * seg.toNat ≤ mx.toNat * seg.toNat :=
          Nat.mul_le_mul_right _ hle
        rw [Nat.mul_comm mx.toNat seg.toNat] at hmul
        omega
    -- after dropping one segment the store holds `n - 1` whole segments
      have hlen' : (d.drop seg.toNat).length = (n - 1) * seg.toNat := by
        rw [List.length_drop, hlen, Nat.sub_mul, Nat.one_mul]
      have hfuel' : (d.drop seg.toNat).length ≤ m := by
        rw [List.length_drop]; omega
      rw [ih (f + 1) (n - 1) (d.drop seg.toNat) hlen' hfuel']
      have hk : n - 1 - mx.toNat + 1 = n - mx.toNat := by omega
      refine Prod.ext ?_ ?_
      · show f + 1 + ((n - 1 - mx.toNat : Nat) : Int) = f + ((n - mx.toNat : Nat) : Int)
        omega
      · show (d.drop seg.toNat).drop ((n - 1 - mx.toNat) * seg.toNat)
            = d.drop ((n - mx.toNat) * seg.toNat)
        rw [List.drop_drop, ← hk, Nat.succ_mul, Nat.add_comm]
    · rw [if_neg hc]
      have hcn : ¬ (seg.toNat * mx.toNat < d.length) := by
        rw [← evict_cond_iff seg mx hseg (by linarith) d]
        exact hc
      have hcn' : d.length ≤ mx.toNat * seg.toNat := by
        rw [Nat.mul_comm]
        exact not_lt.mp hcn
      have hle : n ≤ mx.toNat := by
        by_contra hgt
        push_neg at hgt
        have hmul : mx.toNat * seg.toNat < n * seg.toNat :=
          (Nat.mul_lt_mul_right (by omega)).mpr hgt
        omega
      have : n - mx.toNat = 0 := by omega
      simp [this]

/-- Claim C7: once a `Write` call completes successfully on a buffer with
positive segment size and positive capacity, the store holds at most
`maxSegments` complete segments: `len(store) / segmentSize ≤ maxSegments`. -/
theorem C7_capacity_after_write (b : Buffer) (buf : List Nat) (b' : Buffer)
    (n : Int) (hseg : 1 ≤ b.segment) (hmx : 1 ≤ b.maxCount)
    (hw : Write b buf = (b', n, none)) :
    (b'.data.length : Int) / b'.segment ≤ b'.maxCount := by
  unfold Write at hw
  by_cases hc : ((buf.length : Int) > b.segment * b.maxCount ∧ b.overflow = false)
  · rw [if_pos hc] at hw
    simp at hw
  · rw [if_neg hc] at hw
    simp only [Prod.mk.injEq] at hw
    obtain ⟨hb, -, -⟩ := hw
    subst hb
    have hlen := evictLoop_length_le b.segment b.maxCount hseg (by linarith)
      (b.data ++ buf).length b.firstID (b.data ++ buf) le_rfl
    show ((evictLoop b.segment b.maxCount (b.data ++ buf).length b.firstID
      (b.data ++ buf)).2.length : Int) / b.segment ≤ b.maxCount
    calc ((evictLoop b.segment b.maxCount (b.data ++ buf).length b.firstID
            (b.data ++ buf)).2.length : Int) / b.segment
        ≤ (b.segment * b.maxCount) / b.segment :=
          Int.ediv_le_ediv (by linarith) hlen
      _ = b.maxCount := Int.mul_ediv_cancel_left _ (by linarith)

/-- Witness for C7 at a concrete input. -/
theorem C7_capacity_after_write_witness :
    ((⟨2, 2, 1, 0, 0, false, [1, 2, 3]⟩ : Buffer).data.length : Int)
        / (⟨2, 2, 1, 0, 0, false, [1, 2, 3]⟩ : Buffer).segment
      ≤ (⟨2, 2, 1, 0, 0, false, [1, 2, 3]⟩ : Buffer).maxCount :=
  C7_capacity_after_write (New ⟨2, 2, 0, false⟩) [1, 2, 3]
    ⟨2, 2, 1, 0, 0, false, [1, 2, 3]⟩ 3 (by decide) (by decide) (by decide)

/-- One successful `Write` of a segment-aligned payload on a segment-aligned
store preserves alignment and establishes the window equality and the
capacity bound. -/
theorem Write_aligned_inv (b : Buffer) (buf : List Nat) (b' : Buffer)
    (n : Int) (hseg : 1 ≤ b.segment) (hmx : 1 ≤ b.maxCount)
    (hdata : (b.data.length : Int) % b.segment = 0)
    (hbuf : ((buf.length : Int)) % b.segment = 0)
    (hw : Write b buf = (b', n, none)) :
    b'.segment = b.segment ∧ b'.maxCount = b.maxCount ∧
    (b'.data.length : Int) % b'.segment = 0 ∧
    (b'.lastID - b'.firstID + 1) * b'.segment = (b'.data.length : Int) ∧
    (b'.data.length : Int) ≤ b'.segment * b'.maxCount := by
  unfold Write at hw
  by_cases hc : ((buf.length : Int) > b.segment * b.maxCount ∧ b.overflow = false)
  · rw [if_pos hc] at hw
    simp at hw
  · rw [if_neg hc] at hw
    simp only [Prod.mk.injEq] at hw
    obtain ⟨hb, -, -⟩ := hw
    subst hb
    have hdvd : (b.segment.toNat : Int) = b.segment := Int.toNat_of_nonneg (by linarith)
    have hLmod : ((b.data ++ buf).length : Int) % b.segment = 0 := by
      rw [List.length_append]
      push_cast
      rw [Int.add_emod, hdata, hbuf]
      simp
    obtain ⟨nn, hnn⟩ : ∃ nn : Nat, (b.data ++ buf).length = nn * b.segment.toNat := by
      have h1 : b.segment ∣ ((b.data ++ buf).length : Int) :=
        Int.dvd_of_emod_eq_zero hLmod
      rw [← hdvd] at h1
      obtain ⟨c, hcs⟩ := Int.natCast_dvd_natCast.mp h1
      exact ⟨c, by rw [hcs, Nat.mul_comm]⟩
    have hev := evictLoop_aligned b.segment b.maxCount hseg hmx
      (b.data ++ buf).length b.firstID nn (b.data ++ buf) hnn le_rfl
    have hcount : ((b.data ++ buf).length : Int) / b.segment = nn := by
      rw [hnn, Nat.cast_mul, hdvd]
      exact Int.mul_ediv_cancel _ (by linarith)
    have hlen2 : (((b.data ++ buf).drop ((nn - b.maxCount.toNat) * b.segment.toNat)).length : Int)
        = ((nn - (nn - b.maxCount.toNat) : Nat) : Int) * b.segment := by
      rw [List.length_drop, hnn, ← Nat.sub_mul, Nat.cast_mul, hdvd]
    refine ⟨rfl, rfl, ?_, ?_, ?_⟩
    · show (((evictLoop b.segment b.maxCount (b.data ++ buf).length b.firstID
        (b.data ++ buf)).2.length : Int)) % b.segment = 0
      rw [hev]
      show ((((b.data ++ buf).drop ((nn - b.maxCount.toNat) * b.segment.toNat)).length : Int))
        % b.segment = 0
      rw [hlen2]
      exact Int.mul_emod_left _ _
    · show (((b.data ++ buf).length : Int) / b.segment + b.firstID - 1 -
          (evictLoop b.segment b.maxCount (b.data ++ buf).length b.firstID
            (b.data ++ buf)).1 + 1) * b.segment
        = ((evictLoop b.segment b.maxCount (b.data ++ buf).length b.firstID
            (b.data ++ buf)).2.length : Int)
      rw [hev, hcount]
      show ((nn : Int) + b.firstID - 1 - (b.firstID + ((nn - b.maxCount.toNat : Nat) : Int)) + 1)
          * b.segment
        = (((b.data ++ buf).drop ((nn - b.maxCount.toNat) * b.segment.toNat)).length : Int)
      rw [hlen2]
      congr 1
      omega
    · show ((evictLoop b.segment b.maxCount (b.data ++ buf).length b.firstID
          (b.data ++ buf)).2.length : Int) ≤ b.segment * b.maxCount
      exact evictLoop_length_le b.segment b.maxCount hseg (by linarith) _ _ _ le_rfl

/-- Over a whole sequence of successful aligned `Write` calls, the segment
size and capacity stay fixed and the final buffer satisfies the window
equality and the capacity bound. -/
theorem writeAll_aligned_inv :
    ∀ (ps : List (List Nat)) (b b' : Buffer),
      1 ≤ b.segment → 1 ≤ b.maxCount →
      (b.data.length : Int) % b.segment = 0 →
      (∀ p ∈ ps, ((p.length : Int)) % b.segment = 0) →
      ps ≠ [] → writeAll b ps = some b' →
      b'.segment = b.segment ∧ b'.maxCount = b.maxCount ∧
      (b'.lastID - b'.firstID + 1) * b'.segment = (b'.data.length : Int) ∧
      (b'.data.length : Int) ≤ b'.segment * b'.maxCount := by
  intro ps
  induction ps with
  | nil => intro b b' _ _ _ _ hne _; exact absurd rfl hne
  | cons p ps ih =>
    intro b b' hseg hmx hdata hal hne hw
    unfold writeAll at hw
    rcases hW : Write b p with ⟨b1, n1, e1⟩
    rw [hW] at hw
    cases e1 with
    | some e => simp at hw
    | none =>
      obtain ⟨hs1, hm1, hmod1, hwin1, hbnd1⟩ :=
        Write_aligned_inv b p b1 n1 hseg hmx hdata (hal p (by simp)) hW
      cases ps with
      | nil =>
        simp only [writeAll, Option.some.injEq] at hw
        subst hw
        exact ⟨hs1, hm1, hwin1, hbnd1⟩
      | cons q qs =>
        have hseg1 : 1 ≤ b1.segment := by rw [hs1]; exact hseg
        have hmx1 : 1 ≤ b1.maxCount := by rw [hm1]; exact hmx
        have hdata1 : (b1.data.length : Int) % b1.segment = 0 := hmod1
        have hal1 : ∀ r ∈ q :: qs, ((r.length : Int)) % b1.segment = 0 := by
          intro r hr
          rw [hs1]
          exact hal r (List.mem_cons_of_mem _ hr)
        obtain ⟨hs2, hm2, hwin2, hbnd2⟩ :=
          ih b1 b' hseg1 hmx1 hdata1 hal1 (by simp) hw
        exact ⟨hs2.trans hs1, hm2.trans hm1, hwin2, hbnd2⟩

/-- Claim C1 (counterexample): a successful `Write` of a single byte into a
buffer with segment size 2 leaves `(lastID - firstID + 1) * segmentSize = 0`
but `len(store) = 1`: with a trailing partial segment the window equality
fails after a successful call. -/
theorem C1_counterexample :
    (Write (New ⟨2, 2, 0, false⟩) [7]).2.2 = none ∧
    ¬ (((Write (New ⟨2, 2, 0, false⟩) [7]).1.lastID
        - (Write (New ⟨2, 2, 0, false⟩) [7]).1.firstID + 1)
          * (Write (New ⟨2, 2, 0, false⟩) [7]).1.segment
      = ((Write (New ⟨2, 2, 0, false⟩) [7]).1.data.length : Int)) := by
  decide

/-- Claim C1 (amended): for every sequence of successful `Write` calls
whose payload lengths are all multiples of the (positive) segment size, on
a buffer with positive capacity, after each call
`(lastID - firstID + 1) * segmentSize = len(store)` and that value never
exceeds `maxSegments * segmentSize`.  (The original claim fails when a
payload leaves a trailing partial segment in the store.)  "After each
call" is captured by quantifying over every nonempty sequence: every
prefix of a longer sequence is itself such a sequence. -/
theorem C1_window_invariant_amended (cfg : Config) (ps : List (List Nat))
    (b' : Buffer)
    (hseg : 1 ≤ (New cfg).segment) (hmx : 1 ≤ (New cfg).maxCount)
    (hne : ps ≠ [])
    (hal : ∀ p ∈ ps, ((p.length : Int)) % (New cfg).segment = 0)
    (hw : writeAll (New cfg) ps = some b') :
    (b'.lastID - b'.firstID + 1) * b'.segment = (b'.data.length : Int) ∧
    (b'.lastID - b'.firstID + 1) * b'.segment ≤ b'.maxCount * b'.segment := by
  obtain ⟨-, -, hwin, hbnd⟩ :=
    writeAll_aligned_inv ps (New cfg) b' hseg hmx (by simp [New]) hal hne hw
  refine ⟨hwin, ?_⟩
  rw [hwin, mul_comm b'.maxCount b'.segment]
  exact hbnd

/-- Witness for the amended C1 at a concrete input. -/
theorem C1_window_invariant_amended_witness :
    ((⟨2, 2, 1, 0, 0, false, [5, 6]⟩ : Buffer).lastID
        - (⟨2, 2, 1, 0, 0, false, [5, 6]⟩ : Buffer).firstID + 1)
      * (⟨2, 2, 1, 0, 0, false, [5, 6]⟩ : Buffer).segment
      = ((⟨2, 2, 1, 0, 0, false, [5, 6]⟩ : Buffer).data.length : Int) ∧
    ((⟨2, 2, 1, 0, 0, false, [5, 6]⟩ : Buffer).lastID
        - (⟨2, 2, 1, 0, 0, false, [5, 6]⟩ : Buffer).firstID + 1)
      * (⟨2, 2, 1, 0, 0, false, [5, 6]⟩ : Buffer).segment
      ≤ (⟨2, 2, 1, 0, 0, false, [5, 6]⟩ : Buffer).maxCount
        * (⟨2, 2, 1, 0, 0, false, [5, 6]⟩ : Buffer).segment :=
  C1_window_invariant_amended ⟨2, 2, 0, false⟩ [[5, 6]]
    ⟨2, 2, 1, 0, 0, false, [5, 6]⟩ (by decide) (by decide) (by decide)
    (by decide) (by decide)

/-- `acquireID` reports `ErrEmpty` exactly on an empty store. -/
theorem acquireID_empty_iff (b : Buffer) (id : Int) :
    acquireID b id = some ErrEmpty ↔ b.data = [] := by
  unfold acquireID
  split_ifs with h1 h2
  · simp [List.length_eq_zero.mp h1]
  · simp only [Option.some.injEq]
    constructor
    · intro h; exact absurd h (by decide)
    · intro h; exact absurd (by simp [h] : b.data.length = 0) h1
  · constructor
    · intro h; simp at h
    · intro h; exact absurd (by simp [h] : b.data.length = 0) h1

/-- `acquireID` reports `ErrMiss` exactly on a nonempty store with the ID
outside `[firstID, lastID]`. -/
theorem acquireID_miss_iff (b : Buffer) (id : Int) :
    acquireID b id = some ErrMiss ↔
      (b.data ≠ [] ∧ (id < b.firstID ∨ id > b.lastID)) := by
  unfold acquireID
  split_ifs with h1 h2
  · constructor
    · intro h; exact absurd (Option.some.inj h) (by decide)
    · intro h; exact absurd (List.length_eq_zero.mp h1) h.1
  · constructor
    · intro _
      refine ⟨fun hd => h1 (by simp [hd]), h2⟩
    · intro _; rfl
  · constructor
    · intro h; simp at h
    · intro h; exact absurd h.2 h2

/-- With an adequately sized destination, `Get`'s error is exactly
`acquireID`'s verdict. -/
theorem Get_snd_eq (b : Buffer) (dst : List Nat) (id : Int)
    (hdst : b.segment ≤ (dst.length : Int)) :
    (Get b dst id).2 = acquireID b id := by
  unfold Get
  rw [if_neg (not_lt.mpr hdst)]
  rcases h : acquireID b id with _ | e <;> rfl

/-- With a sink that reports no error, `ReadID`'s error is exactly
`acquireID`'s verdict. -/
theorem ReadID_snd_eq (w : List Nat → Int × Option Error)
    (hw : ∀ bs, (w bs).2 = none) (b : Buffer) (id : Int) :
    (ReadID w b id).2 = acquireID b id := by
  unfold ReadID
  rcases h : acquireID b id with _ | e
  · exact hw _
  · rfl

/-- Claim C5 (code bug): `ReadID` hands the sink an empty byte slice, not
the segment's content.  Here the buffer holds one segment `[1, 2]` with ID
0 (`getSegment` confirms the content), the sink reports the byte count it
receives, and `ReadID` returns 0 — `var buf []byte` is nil, so
`copy(buf, b.getSegment(id))` copies zero bytes. -/
theorem C5_readid_sends_empty_payload :
    (Write (New ⟨2, 2, 0, false⟩) [1, 2]).1.firstID = 0 ∧
    (Write (New ⟨2, 2, 0, false⟩) [1, 2]).1.lastID = 0 ∧
    getSegment (Write (New ⟨2, 2, 0, false⟩) [1, 2]).1 0 = [1, 2] ∧
    ReadID (fun bs => ((bs.length : Int), none))
      (Write (New ⟨2, 2, 0, false⟩) [1, 2]).1 0 = (0, none) := by
  decide

/-- Claim C6 (counterexample): `Write` of an empty payload succeeds (returns
`nil` error), the window is empty so ID 0 is out of window, yet `Get`
returns `Empty`, not `Miss` — refuting "after at least one successful
write, an out-of-window request returns Miss, never Empty". -/
theorem C6_counterexample :
    (Write (New ⟨2, 2, 0, false⟩) []).2.2 = none ∧
    ((0 : Int) < (Write (New ⟨2, 2, 0, false⟩) []).1.firstID ∨
      (Write (New ⟨2, 2, 0, false⟩) []).1.lastID < 0) ∧
    (Get (Write (New ⟨2, 2, 0, false⟩) []).1 [0, 0] 0).2 = some ErrEmpty ∧
    ErrEmpty ≠ ErrMiss := by
  decide

/-- Claim C6 (amended): for an adequately sized destination and a
non-failing sink, `Get` and `ReadID` fail with `Empty` exactly when the
store holds zero bytes, and with `Miss` exactly when the store is nonempty
and the ID is outside `[firstID, lastID]`; and after a successful write of
a NONEMPTY payload (positive segment size and capacity) the store is
nonempty, so any out-of-window request afterwards yields `Miss`, never
`Empty`.  (The original claim fails for a successful empty write, which
leaves the buffer empty.) -/
theorem C6_empty_vs_miss_amended (b : Buffer) (id : Int) (dst : List Nat)
    (w : List Nat → Int × Option Error)
    (hdst : b.segment ≤ (dst.length : Int))
    (hw : ∀ bs, (w bs).2 = none)
    (buf : List Nat) (hbuf : buf ≠ [])
    (hseg : 1 ≤ b.segment) (hmx : 1 ≤ b.maxCount) :
    ((Get b dst id).2 = some ErrEmpty ↔ b.data = []) ∧
    ((Get b dst id).2 = some ErrMiss ↔
      (b.data ≠ [] ∧ (id < b.firstID ∨ id > b.lastID))) ∧
    ((ReadID w b id).2 = some ErrEmpty ↔ b.data = []) ∧
    ((ReadID w b id).2 = some ErrMiss ↔
      (b.data ≠ [] ∧ (id < b.firstID ∨ id > b.lastID))) ∧
    ((Write b buf).2.2 = none → (Write b buf).1.data ≠ []) := by
  refine ⟨?_, ?_, ?_, ?_, ?_⟩
  · rw [Get_snd_eq b dst id hdst]; exact acquireID_empty_iff b id
  · rw [Get_snd_eq b dst id hdst]; exact acquireID_miss_iff b id
  · rw [ReadID_snd_eq w hw b id]; exact acquireID_empty_iff b id
  · rw [ReadID_snd_eq w hw b id]; exact acquireID_miss_iff b id
  · intro hsucc
    by_cases hc : ((buf.length : Int) > b.segment * b.maxCount ∧ b.overflow = false)
    · exfalso
      unfold Write at hsucc
      rw [if_pos hc] at hsucc
      simp at hsucc
    · unfold Write
      rw [if_neg hc]
      dsimp only
      have hpos : 1 ≤ (b.data ++ buf).length := by
        rw [List.length_append]
        have : 0 < buf.length := List.length_pos.mpr hbuf
        omega
      have := evictLoop_pos b.segment b.maxCount hseg hmx
        (b.data ++ buf).length b.firstID (b.data ++ buf) hpos
      intro hnil
      rw [hnil] at this
      simp at this

/-- Witness for the amended C6 at a concrete input: nonempty one-segment
buffer, out-of-window ID 7, counting sink, payload `[9]`. -/
theorem C6_empty_vs_miss_amended_witness :
    ((Get (⟨2, 2, 1, 0, 0, false, [5, 6]⟩ : Buffer) [0, 0] 7).2 = some ErrEmpty ↔
      (⟨2, 2, 1, 0, 0, false, [5, 6]⟩ : Buffer).data = []) ∧
    ((Get (⟨2, 2, 1, 0, 0, false, [5, 6]⟩ : Buffer) [0, 0] 7).2 = some ErrMiss ↔
      ((⟨2, 2, 1, 0, 0, false, [5, 6]⟩ : Buffer).data ≠ [] ∧
        ((7 : Int) < (⟨2, 2, 1, 0, 0, false, [5, 6]⟩ : Buffer).firstID ∨
          (7 : Int) > (⟨2, 2, 1, 0, 0, false, [5, 6]⟩ : Buffer).lastID))) ∧
    ((ReadID (fun bs => ((bs.length : Int), none))
        (⟨2, 2, 1, 0, 0, false, [5, 6]⟩ : Buffer) 7).2 = some ErrEmpty ↔
      (⟨2, 2, 1, 0, 0, false, [5, 6]⟩ : Buffer).data = []) ∧
    ((ReadID (fun bs => ((bs.length : Int), none))
        (⟨2, 2, 1, 0, 0, false, [5, 6]⟩ : Buffer) 7).2 = some ErrMiss ↔
      ((⟨2, 2, 1, 0, 0, false, [5, 6]⟩ : Buffer).data ≠ [] ∧
        ((7 : Int) < (⟨2, 2, 1, 0, 0, false, [5, 6]⟩ : Buffer).firstID ∨
          (7 : Int) > (⟨2, 2, 1, 0, 0, false, [5, 6]⟩ : Buffer).lastID))) ∧
    ((Write (⟨2, 2, 1, 0, 0, false, [5, 6]⟩ : Buffer) [9]).2.2 = none →
      (Write (⟨2, 2, 1, 0, 0, false, [5, 6]⟩ : Buffer) [9]).1.data ≠ []) :=
  C6_empty_vs_miss_amended ⟨2, 2, 1, 0, 0, false, [5, 6]⟩ 7 [0, 0]
    (fun bs => ((bs.length : Int), none)) (by decide) (fun _ => rfl)
    [9] (by decide) (by decide) (by decide)

/-- Closed form of a non-rejected `Write` when the resulting store length is
exactly `n` whole segments. -/
theorem Write_of_aligned (b : Buffer) (buf : List Nat) (n : Nat)
    (hseg : 1 ≤ b.segment) (hmx : 1 ≤ b.maxCount)
    (hnn : (b.data ++ buf).length = n * b.segment.toNat)
    (hnocap : ¬ ((buf.length : Int) > b.segment * b.maxCount ∧ b.overflow = false)) :
    Write b buf =
      ({ b with data := (b.data ++ buf).drop ((n - b.maxCount.toNat) * b.segment.toNat), count := (n : Int), lastID := (n : Int) + b.firstID - 1, firstID := b.firstID + ((n - b.maxCount.toNat : Nat) : Int) },
       (buf.length : Int), none) := by
  have hdvd : (b.segment.toNat : Int) = b.segment := Int.toNat_of_nonneg (by linarith)
  have hcount : ((b.data ++ buf).length : Int) / b.segment = (n : Int) := by
    rw [hnn, Nat.cast_mul, hdvd]
    exact Int.mul_ediv_cancel _ (by linarith)
  unfold Write
  rw [if_neg hnocap]
  dsimp only
  rw [evictLoop_aligned b.segment b.maxCount hseg hmx (b.data ++ buf).length
    b.firstID n (b.data ++ buf) hnn le_rfl, hcount]

/-- Claim C2: segment size 512, capacity 12, start ID 0.  Writing 12×512
bytes succeeds and gives `FirstID = 0`, `LastID = 11`; writing 2×512 more
bytes succeeds and gives `FirstID = 2`, `LastID = 13`; fetching ID 1 (with
an adequately sized destination) now returns `Miss` — the oldest segments
were evicted first. -/
theorem C2_concrete_scenario (p1 p2 dst : List Nat)
    (h1 : p1.length = 6144) (h2 : p2.length = 1024)
    (hdst : (512 : Int) ≤ (dst.length : Int)) :
    (Write (New ⟨512, 12, 0, false⟩) p1).2.2 = none ∧
    FirstID (Write (New ⟨512, 12, 0, false⟩) p1).1 = 0 ∧
    LastID (Write (New ⟨512, 12, 0, false⟩) p1).1 = 11 ∧
    (Write (Write (New ⟨512, 12, 0, false⟩) p1).1 p2).2.2 = none ∧
    FirstID (Write (Write (New ⟨512, 12, 0, false⟩) p1).1 p2).1 = 2 ∧
    LastID (Write (Write (New ⟨512, 12, 0, false⟩) p1).1 p2).1 = 13 ∧
    (Get (Write (Write (New ⟨512, 12, 0, false⟩) p1).1 p2).1 dst 1).2
      = some ErrMiss := by
  have hNew : New ⟨512, 12, 0, false⟩ = ⟨512, 12, 0, 0, 0, false, []⟩ := rfl
  have hb1 : Write (New ⟨512, 12, 0, false⟩) p1
      = (⟨512, 12, 12, 11, 0, false, p1⟩, 6144, none) := by
    rw [hNew]
    rw [Write_of_aligned ⟨512, 12, 0, 0, 0, false, []⟩ p1 12 (by norm_num)
      (by norm_num) (by simp [h1]) (by rw [h1]; norm_num)]
    simp [h1]
  have hb2 : Write (⟨512, 12, 12, 11, 0, false, p1⟩ : Buffer) p2
      = (⟨512, 12, 14, 13, 2, false, (p1 ++ p2).drop 1024⟩, 1024, none) := by
    rw [Write_of_aligned ⟨512, 12, 12, 11, 0, false, p1⟩ p2 14 (by norm_num)
      (by norm_num) (by simp [List.length_append, h1, h2]) (by rw [h2]; norm_num)]
    simp [h2]
  rw [hb1]
  dsimp only
  rw [hb2]
  dsimp only
  have hdlen : ((p1 ++ p2).drop 1024).length = 6144 := by
    rw [List.length_drop, List.length_append, h1, h2]
  refine ⟨rfl, rfl, rfl, rfl, rfl, rfl, ?_⟩
  rw [Get_snd_eq (⟨512, 12, 14, 13, 2, false, (p1 ++ p2).drop 1024⟩ : Buffer)
    dst 1 hdst]
  rw [acquireID_miss_iff]
  refine ⟨?_, Or.inl (by norm_num)⟩
  intro hnil
  have hnil' : (p1 ++ p2).drop 1024 = [] := hnil
  have h0 : ((p1 ++ p2).drop 1024).length = 0 := by rw [hnil']; rfl
  omega

/-- Witness for C2 at concrete payloads. -/
theorem C2_concrete_scenario_witness :
    (Write (New ⟨512, 12, 0, false⟩) (List.replicate 6144 3)).2.2 = none ∧
    FirstID (Write (New ⟨512, 12, 0, false⟩) (List.replicate 6144 3)).1 = 0 ∧
    LastID (Write (New ⟨512, 12, 0, false⟩) (List.replicate 6144 3)).1 = 11 ∧
    (Write (Write (New ⟨512, 12, 0, false⟩) (List.replicate 6144 3)).1
      (List.replicate 1024 4)).2.2 = none ∧
    FirstID (Write (Write (New ⟨512, 12, 0, false⟩) (List.replicate 6144 3)).1
      (List.replicate 1024 4)).1 = 2 ∧
    LastID (Write (Write (New ⟨512, 12, 0, false⟩) (List.replicate 6144 3)).1
      (List.replicate 1024 4)).1 = 13 ∧
    (Get (Write (Write (New ⟨512, 12, 0, false⟩) (List.replicate 6144 3)).1
      (List.replicate 1024 4)).1 (List.replicate 512 0) 1).2 = some ErrMiss :=
  C2_concrete_scenario (List.replicate 6144 3) (List.replicate 1024 4)
    (List.replicate 512 0) (by rw [List.length_replicate])
    (by rw [List.length_replicate]) (by rw [List.length_replicate]; norm_num)

/-- Claim C4: on a buffer whose store is whole segments and within
capacity (positive segment size and capacity), writing a payload `P` of
exactly one segment succeeds, and fetching the ID assigned to it
(`LastID` after the write) with a destination of at least `segmentSize`
bytes succeeds and places exactly `P` at the head of the destination. -/
theorem C4_roundtrip (b : Buffer) (P dst : List Nat) (m : Nat)
    (hseg : 1 ≤ b.segment) (hmx : 1 ≤ b.maxCount)
    (hdata : b.data.length = m * b.segment.toNat)
    (_hcap : (b.data.length : Int) ≤ b.segment * b.maxCount)
    (hP : (P.length : Int) = b.segment)
    (hdst : b.segment ≤ (dst.length : Int)) :
    (Write b P).2.2 = none ∧
    (Get (Write b P).1 dst (LastID (Write b P).1)).2 = none ∧
    (Get (Write b P).1 dst (LastID (Write b P).1)).1.take b.segment.toNat
      = P := by
  have hsegcast : (b.segment.toNat : Int) = b.segment := Int.toNat_of_nonneg (by linarith)
  have hPn : P.length = b.segment.toNat := by omega
  have hnn : (b.data ++ P).length = (m + 1) * b.segment.toNat := by
    rw [List.length_append, hdata, hPn, Nat.succ_mul]
  have hnocap : ¬ ((P.length : Int) > b.segment * b.maxCount ∧ b.overflow = false) := by
    rintro ⟨hgt, -⟩
    rw [hP] at hgt
    nlinarith
  have hW := Write_of_aligned b P (m + 1) hseg hmx hnn hnocap
  rw [hW]
  dsimp only [LastID]
  set k := m + 1 - b.maxCount.toNat with hkdef
  have hkle : k ≤ m := by omega
  have hstore : ((b.data ++ P).drop (k * b.segment.toNat)).length
      = (m + 1 - k) * b.segment.toNat := by
    rw [List.length_drop, hnn, ← Nat.sub_mul]
  have hlenpos : ¬ ((b.data ++ P).drop (k * b.segment.toNat)).length = 0 := by
    rw [hstore]
    have h1 : 1 ≤ m + 1 - k := by omega
    have h2 : 1 ≤ b.segment.toNat := by omega
    positivity
  -- ID resolution succeeds: the assigned ID is inside the window
  have hacq : acquireID
      (⟨b.segment, b.maxCount, ((m + 1 : Nat) : Int), ((m + 1 : Nat) : Int) + b.firstID - 1, b.firstID + (k : Int), b.overflow, (b.data ++ P).drop (k * b.segment.toNat)⟩ : Buffer)
      (((m + 1 : Nat) : Int) + b.firstID - 1) = none := by
    unfold acquireID
    dsimp only
    rw [if_neg hlenpos, if_neg]
    push_neg
    constructor
    · omega
    · omega
  -- the addressed byte range is exactly P
  have hgetseg : getSegment
      (⟨b.segment, b.maxCount, ((m + 1 : Nat) : Int), ((m + 1 : Nat) : Int) + b.firstID - 1, b.firstID + (k : Int), b.overflow, (b.data ++ P).drop (k * b.segment.toNat)⟩ : Buffer)
      (((m + 1 : Nat) : Int) + b.firstID - 1) = P := by
    unfold getSegment
    dsimp only
    have hid : ((m + 1 : Nat) : Int) + b.firstID - 1 - (b.firstID + (k : Int))
        = ((m - k : Nat) : Int) := by push_cast; omega
    rw [hid]
    have htn : (b.segment * ((m - k : Nat) : Int)).toNat
        = (m - k) * b.segment.toNat := by
      rw [← hsegcast, ← Nat.cast_mul, Nat.mul_comm]
      exact Int.toNat_natCast _
    rw [htn, List.drop_drop, ← Nat.add_mul]
    have hmk : k + (m - k) = m := by omega
    rw [hmk, show m * b.segment.toNat = b.data.length from hdata.symm,
      List.drop_left, ← hPn, List.take_length]
  refine ⟨rfl, ?_, ?_⟩
  · unfold Get
    dsimp only
    rw [if_neg (not_lt.mpr hdst), hacq]
  · unfold Get
    dsimp only
    rw [if_neg (not_lt.mpr hdst), hacq]
    dsimp only
    rw [hgetseg]
    unfold goCopy
    dsimp only
    have htake : (dst.take b.segment.toNat).length = b.segment.toNat := by
      rw [List.length_take]
      omega
    rw [htake, hPn, Nat.min_self]
    have hPtake : P.take b.segment.toNat = P := by
      rw [← hPn]
      exact List.take_length P
    have hdrop0 : (dst.take b.segment.toNat).drop b.segment.toNat = [] :=
      List.drop_eq_nil_of_le (le_of_eq htake)
    rw [hPtake, hdrop0, List.append_nil, ← hPn, List.take_left]

/-- Witness for C4: one-segment buffer `[1, 2]` (segment size 2, capacity
2), payload `[8, 9]`, destination `[0, 0]`. -/
theorem C4_roundtrip_witness :
    (Write (⟨2, 2, 1, 0, 0, false, [1, 2]⟩ : Buffer) [8, 9]).2.2 = none ∧
    (Get (Write (⟨2, 2, 1, 0, 0, false, [1, 2]⟩ : Buffer) [8, 9]).1 [0, 0]
      (LastID (Write (⟨2, 2, 1, 0, 0, false, [1, 2]⟩ : Buffer) [8, 9]).1)).2
      = none ∧
    (Get (Write (⟨2, 2, 1, 0, 0, false, [1, 2]⟩ : Buffer) [8, 9]).1 [0, 0]
      (LastID (Write (⟨2, 2, 1, 0, 0, false, [1, 2]⟩ : Buffer) [8, 9]).1)).1.take
        (⟨2, 2, 1, 0, 0, false, [1, 2]⟩ : Buffer).segment.toNat = [8, 9] :=
  C4_roundtrip ⟨2, 2, 1, 0, 0, false, [1, 2]⟩ [8, 9] [0, 0] 1 (by decide)
    (by decide) (by decide) (by decide) (by decide) (by decide)

/-- Claim C10: `New` applies the defaults (segment 1024, count 8) exactly
when the configured value is zero, and otherwise stores `cfg.Segment` and
`cfg.Count` unchanged — including negative values; construction always
yields a buffer with `firstID = cfg.Start` and no validation. -/
theorem C10_new_defaults (cfg : Config) :
    (New cfg).segment = (if cfg.Segment = 0 then 1024 else cfg.Segment) ∧
    (New cfg).maxCount = (if cfg.Count = 0 then 8 else cfg.Count) ∧
    (New cfg).firstID = cfg.Start ∧
    (New cfg).overflow = cfg.AllowOverflow := by
  refine ⟨rfl, rfl, rfl, rfl⟩

/-- Claim C8 (counterexample): with start ID 5, a fresh buffer reports
`LastID = 0`, not `5 - 1 = 4`: the Go struct literal in `New` never
initializes `lastID`, which keeps its zero value. -/
theorem C8_counterexample :
    LastID (New ⟨512, 12, 5, false⟩) = 0 ∧ (0 : Int) ≠ 5 - 1 := by
  exact ⟨rfl, by decide⟩

/-- Claim C8 (amended): for every configuration with start ID `s`, a fresh
buffer satisfies `FirstID() = s` and `LastID() = 0` (Go's zero value —
`lastID` is not seeded from `s`, so `LastID = s - 1` holds only for
`s = 1`; `lastID` first becomes meaningful at the first `Write`). -/
theorem C8_amended (cfg : Config) :
    FirstID (New cfg) = cfg.Start ∧ LastID (New cfg) = 0 :=
  ⟨rfl, rfl⟩

/-- Claim C3: with overflow disallowed and a payload strictly larger than
`maxSegments * segmentSize`, `Write` returns the `TooLargeWrite` error,
reports 0 bytes, and returns the buffer unchanged (all fields intact). -/
theorem C3_reject_no_change (b : Buffer) (buf : List Nat)
    (hov : b.overflow = false)
    (hlen : (buf.length : Int) > b.segment * b.maxCount) :
    Write b buf = (b, 0, some ErrTooLargeWrite) := by
  unfold Write
  rw [if_pos ⟨hlen, hov⟩]

/-- Witness for C3 at a concrete input. -/
theorem C3_reject_no_change_witness :
    Write (New ⟨2, 2, 0, false⟩) [1, 2, 3, 4, 5] =
      (New ⟨2, 2, 0, false⟩, 0, some ErrTooLargeWrite) :=
  C3_reject_no_change (New ⟨2, 2, 0, false⟩) [1, 2, 3, 4, 5] rfl (by decide)

/-- Claim C9: whenever the destination buffer is shorter than
`segmentSize`, `Get` returns the `BufferTooSmall` error and copies nothing
(the destination comes back unchanged), regardless of the requested ID and
of whether the buffer is empty. -/
theorem C9_small_buffer_guard (b : Buffer) (buf : List Nat) (id : Int)
    (hlen : (buf.length : Int) < b.segment) :
    Get b buf id = (buf, some ErrBufferTooSmall) := by
  unfold Get
  rw [if_pos hlen]

/-- Witness for C9 at a concrete input: empty destination, out-of-range ID,
empty buffer. -/
theorem C9_small_buffer_guard_witness :
    Get (New ⟨2, 2, 0, false⟩) [7] 99 = ([7], some ErrBufferTooSmall) :=
  C9_small_buffer_guard (New ⟨2, 2, 0, false⟩) [7] 99 (by decide)

end Player
